import Mathlib

/-!
Verification of the core logic of `mlx_quantize_gui_v2.py` (MLX Quantize &
Convert GUI): a shallow embedding of the command builder
(`_detect_source_type`, `_generate_output_path`, `_build_command`), the
submission routine (`_run_conversion`) and its background worker, together
with proofs of the spec's testable properties.

Strings are embedded as Lean `String`s; the Python string primitives used by
the source (`str.strip`, `str.rstrip`, `str.endswith`, `in`, `str.replace`,
`pathlib` name/stem/parent, `os.path.join`, decimal formatting of an `int`)
are given explicit list-of-characters definitions so that every definition
is executable and kernel-reducible on concrete inputs.

The filesystem is embedded as the finite set of existing paths (a list of
strings) together with the subset of those paths that are directories;
`os.path.exists` / `os.path.isdir` become membership tests.
-/

/-- Decimal rendering of a natural number (most significant digit first),
modelling Python's string formatting of the non-negative suffix counter.
The first argument is fuel; `n` itself is always sufficient fuel since the
recursion divides by 10. -/
def natDecAux : Nat → Nat → List Char
  | 0, _ => []
  | fuel+1, n =>
    if n = 0 then []
    else natDecAux fuel (n / 10) ++ [Nat.digitChar (n % 10)]

/-- Decimal numeral of a natural number, modelling Python `str(int)` for
non-negative integers. -/
def natDecimal (n : Nat) : String :=
  if n = 0 then "0" else String.mk (natDecAux n n)

/-- Decimal numeral of an integer, modelling Python `str(int)`. -/
def intDec : Int → String
  | Int.ofNat n => natDecimal n
  | Int.negSucc n => "-" ++ natDecimal (n + 1)

/-- Numeric value of a decimal digit character. -/
def digToNat (c : Char) : Nat := c.toNat - 48

/-- Value of a most-significant-first decimal digit string. -/
def parseDec (cs : List Char) : Nat := cs.foldl (fun a c => a * 10 + digToNat c) 0

/-- Python `str.strip()`: remove leading and trailing whitespace. -/
def pyStrip (s : String) : String :=
  String.mk (((s.data.dropWhile Char.isWhitespace).reverse.dropWhile Char.isWhitespace).reverse)

/-- Python `str.rstrip()`: remove trailing whitespace. -/
def pyRstrip (s : String) : String :=
  String.mk ((s.data.reverse.dropWhile Char.isWhitespace).reverse)

/-- Python `str.endswith(suffix)`. -/
def pyEndsWith (s suf : String) : Bool := suf.data.isSuffixOf s.data

/-- Python `"/" in path`. -/
def containsSlash (s : String) : Bool := s.data.contains '/'

/-- Python `path.replace("/", "_")` (the only replacement the source performs
is of the single character `/`). -/
def replaceSlashUnderscore (s : String) : String :=
  String.mk (s.data.map (fun c => if c = '/' then '_' else c))

/-- Split a character list on `/`, keeping empty segments, as Python path
splitting does. -/
def splitSlash : List Char → List (List Char)
  | [] => [[]]
  | ch :: rest =>
    let r := splitSlash rest
    if ch = '/' then [] :: r
    else
      match r with
      | [] => [[ch]]
      | g :: gs => (ch :: g) :: gs

/-- `pathlib.Path(s).name`: the last non-empty path segment (empty when the
path has no non-empty segment). -/
def pathName (s : String) : String :=
  String.mk (((splitSlash s.data).filter (fun g => g ≠ [])).getLastD [])

/-- Remove the last `.`-separated extension from a character list that is
known to contain a dot (used on everything after the first character of a
file name). -/
def dropLastExt (l : List Char) : List Char :=
  ((l.reverse.dropWhile (fun c => c ≠ '.')).drop 1).reverse

/-- `pathlib.Path(s).stem`: the final path segment without its last
extension; a lone leading dot is not treated as an extension separator. -/
def pathStem (s : String) : String :=
  match (pathName s).data with
  | [] => ""
  | c :: rest =>
    if rest.contains '.' then String.mk (c :: dropLastExt rest)
    else String.mk (c :: rest)

/-- `str(pathlib.Path(s).parent)`: all but the last non-empty segment. -/
def pathParent (s : String) : String :=
  let abs := s.data.head? = some '/'
  let parts := (splitSlash s.data).filter (fun g => g ≠ [])
  let init := parts.dropLast
  if init.isEmpty then (if abs then "/" else ".")
  else (if abs then "/" else "") ++ String.mk (List.intercalate ['/'] init)

/-- `os.path.join(a, b)` for the cases exercised by the source: an absolute
second component replaces the first; otherwise the components are joined
with a single `/`. -/
def osJoin (a b : String) : String :=
  if b.data.head? = some '/' then b
  else if a = "" then b
  else if pyEndsWith a "/" then a ++ b
  else a ++ "/" ++ b

/-- The finite filesystem state visible to the program: the set of existing
paths and, among them, the directories. -/
structure FS where
  paths : List String
  dirs : List String
deriving DecidableEq

/-- `os.path.exists`. -/
def fsExists (fs : FS) (p : String) : Bool := decide (p ∈ fs.paths)

/-- `os.path.isdir`. -/
def fsIsDir (fs : FS) (p : String) : Bool := decide (p ∈ fs.dirs)

/-- Translation of `_detect_source_type` (source lines 401-417): strip the
input, classify as HuggingFace id, local directory, or local model file,
with HuggingFace as the default fallback.  The result strings are the ones
the source uses. -/
def detectSourceType (fs : FS) (path0 : String) : String :=
  let path := pyStrip path0
  if containsSlash path && !(fsExists fs path) then "hf"
  else if fsExists fs path then
    if fsIsDir fs path then "local"
    else if pyEndsWith path ".safetensors" || pyEndsWith path ".nemo" then "file"
    else "hf"
  else "hf"

/-- The sequence of candidate output paths tried by the uniqueness loop of
`_generate_output_path`: the original path first, then `original_v1`,
`original_v2`, ... (the counter starts at 1 in the source). -/
def candidate (orig : String) : Nat → String
  | 0 => orig
  | k+1 => orig ++ "_v" ++ natDecimal (k + 1)

/-- The `while os.path.exists(output_path)` loop of `_generate_output_path`
(source lines 439-443), with explicit fuel.  `resolveUnique` supplies fuel
`fs.paths.length + 1`, which provably suffices because the candidate paths
are pairwise distinct and the filesystem is finite
(`resolveUnique_not_exists`). -/
def resolveUniqueAux (fs : FS) (orig : String) : Nat → Nat → String
  | 0, k => candidate orig k
  | fuel+1, k =>
    if fsExists fs (candidate orig k) then resolveUniqueAux fs orig fuel (k + 1)
    else candidate orig k

/-- Uniqueness resolution of `_generate_output_path`: first candidate path
that does not exist on disk. -/
def resolveUnique (fs : FS) (orig : String) : String :=
  resolveUniqueAux fs orig (fs.paths.length + 1) 0

/-- The model name derived by `_generate_output_path` (source lines
423-429) from the source path and its detected type. -/
def modelNameOf (source srcType : String) : String :=
  if srcType = "hf" then replaceSlashUnderscore source
  else if srcType = "file" then pathStem source
  else pathName source

/-- Translation of `_generate_output_path` (source lines 419-445): derive a
model name, optionally append the timestamp `ts`, join with the base
directory, and resolve uniqueness against the filesystem. -/
def generateOutputPath (fs : FS) (base source srcType : String)
    (autoTimestamp : Bool) (ts : String) : String :=
  let modelName := modelNameOf source srcType
  let modelName := if autoTimestamp then modelName ++ "_" ++ ts else modelName
  let outputPath := osJoin base modelName
  resolveUnique fs outputPath

/-- The effective source passed to the external tool by `_build_command`
(source lines 453-455): for a `.safetensors` file the containing directory
is substituted. -/
def effectiveSource (sourcePath srcType : String) : String :=
  if srcType = "file" && pyEndsWith sourcePath ".safetensors" then pathParent sourcePath
  else sourcePath

/-- Translation of `_build_command` (source lines 447-473): build the
argument vector for the external conversion tool.  `exe` stands for
`sys.executable`.  The function is pure: it performs no filesystem reads
and no process operations, mirroring the source, which only assembles a
list. -/
def buildCommand (exe sourcePath outputPath srcType dtype : String)
    (enableQuant : Bool) (qBits qGroup : String) (trustRemote : Bool) : List String :=
  let cmd := [exe, "-m", "mlx_lm", "convert"]
  let src := effectiveSource sourcePath srcType
  let cmd := cmd ++ ["--hf-path", src]
  let cmd := cmd ++ ["--mlx-path", outputPath]
  let cmd := cmd ++ ["--dtype", dtype]
  let cmd := if enableQuant then (cmd ++ ["-q"]) ++ ["--q-bits", qBits] ++ ["--q-group-size", qGroup] else cmd
  let cmd := if trustRemote then cmd ++ ["--trust-remote-code"] else cmd
  cmd

/-- The UI/state variables of `MLXQuantizeApp` that `_run_conversion` reads,
plus the single-slot occupancy flag `workerAlive`, which models
`self.worker_thread and self.worker_thread.is_alive()`. -/
structure AppState where
  workerAlive : Bool
  sourcePath : String
  outputBase : String
  autoTimestamp : Bool
  enableQuant : Bool
  qBits : String
  qGroup : String
  dtype : String
  trustRemote : Bool
  hfOffline : Bool
  dryRun : Bool
deriving DecidableEq

/-- Observable effects of a submission and of its background worker, in the
order they occur.  `line` is the per-line log append for one line of
process output (the `onLine` callback of the spec); `uiIdle` is the
restoration of the idle UI and release of the process slot performed by the
worker's `finally` block (the slot-restoring half of the spec's `onDone`). -/
inductive Effect where
  | mkdirs (dir : String)
  | logMsg (level msg : String)
  | logCmd (cmd : List String)
  | uiBusy
  | startThread
  | spawn (cmd : List String)
  | line (s : String)
  | uiIdle
deriving DecidableEq

/-- The synchronous outcome of `_run_conversion`: each early `return` of the
source is one constructor.  `alreadyRunning`, `noSource`,
`manualConversionRequired` and `baseDirError` model the message boxes shown
before any task starts; `dryRunReturn` is the dry-run early return;
`started` means the background worker thread was created and started. -/
inductive SubmitResult where
  | alreadyRunning
  | noSource
  | manualConversionRequired
  | baseDirError
  | dryRunReturn
  | started (cmd : List String) (outputPath : String)
deriving DecidableEq

/-- Behaviour of one attempted external process: either process creation
raises (`Except.error cause`, e.g. a missing executable), or the process is
created and then emits the given lines on its merged stdout/stderr stream
and exits with the given code. -/
def ProcResult := Except String (List String × Int)

/-- The `for line in self.current_process.stdout` loop of the worker
(source lines 578-579): one log append per emitted line, in order, each
line right-stripped before logging. -/
def streamLines : List String → List Effect
  | [] => []
  | l :: ls => Effect.line (pyRstrip l) :: streamLines ls

/-- The 80-character `=` separator the source logs around sections. -/
def sepLine : String := String.mk (List.replicate 80 '=')

/-- The status log entries the worker emits after the process exits
(source lines 583-587): success entries on exit code 0, an error entry
carrying the exit code otherwise. -/
def statusEvents (outputPath : String) (code : Int) : List Effect :=
  if code = 0 then
    [Effect.logMsg "SUCCESS" "SUCCESS: Conversion completed!",
     Effect.logMsg "INFO" ("Output saved to: " ++ outputPath)]
  else
    [Effect.logMsg "ERROR" ("ERROR: Conversion failed (exit code " ++ intDec code ++ ")")]

/-- The worker's `finally` block (source lines 591-597): restore the idle
UI, release the process slot, and log a closing separator. -/
def cleanupEvents : List Effect := [Effect.uiIdle, Effect.logMsg "INFO" sepLine]

/-- Translation of the worker closure of `_run_conversion` (source lines
565-597): spawn the process, stream its output line by line, report the
exit status, and always run the cleanup.  If process creation raises, the
exception is caught and logged and only the cleanup runs. -/
def workerEvents (cmd : List String) (outputPath : String) : ProcResult → List Effect
  | Except.error cause =>
      Effect.logMsg "ERROR" ("ERROR: " ++ cause) :: cleanupEvents
  | Except.ok (lines, code) =>
      Effect.spawn cmd :: (streamLines lines ++ statusEvents outputPath code ++ cleanupEvents)

/-- The log entries `_preview_command` emits for a `.nemo` source (source
lines 486-493): manual-conversion instructions, no command built. -/
def nemoLogs : List Effect :=
  [Effect.logMsg "INFO" sepLine,
   Effect.logMsg "INFO" "NeMo files require separate conversion to HuggingFace format first.",
   Effect.logMsg "INFO" "Install nemo2hf: pip install nemo2hf",
   Effect.logMsg "INFO" "Then run: python -m nemo2hf --in input.nemo --out temp_dir",
   Effect.logMsg "INFO" "Finally, use this tool on the temp_dir",
   Effect.logMsg "INFO" sepLine]

/-- Translation of the synchronous part of `_run_conversion` (source lines
505-600): the guard chain (already running, empty source, `.nemo` source),
source classification, output-path generation, base-directory creation
(`mkdirFails` models `os.makedirs` raising), command building, the start
logs, the dry-run early return, and otherwise the UI busy transition and
worker-thread start.  Returns the synchronous result, the effect trace of
the call itself, and the state after the call (where `workerAlive := true`
records that the started worker now occupies the single slot). -/
def runConversion (exe : String) (fs : FS) (ts : String) (mkdirFails : Bool)
    (st : AppState) : SubmitResult × List Effect × AppState :=
  if st.workerAlive then (SubmitResult.alreadyRunning, [], st)
  else
    let source := pyStrip st.sourcePath
    if source = "" then (SubmitResult.noSource, [], st)
    else if pyEndsWith source ".nemo" then (SubmitResult.manualConversionRequired, nemoLogs, st)
    else
      let srcType := detectSourceType fs source
      let outputPath := generateOutputPath fs st.outputBase source srcType st.autoTimestamp ts
      if mkdirFails then (SubmitResult.baseDirError, [], st)
      else
        let cmd := buildCommand exe source outputPath srcType st.dtype
          st.enableQuant st.qBits st.qGroup st.trustRemote
        let startLogs := [Effect.mkdirs st.outputBase,
                          Effect.logMsg "INFO" sepLine,
                          Effect.logMsg "INFO" ("Starting conversion: " ++ source ++ " -> " ++ outputPath),
                          Effect.logCmd cmd]
        if st.dryRun then
          (SubmitResult.dryRunReturn,
           startLogs ++ [Effect.logMsg "INFO" "DRY RUN - Not executing command",
                         Effect.logMsg "INFO" sepLine],
           st)
        else
          (SubmitResult.started cmd outputPath,
           startLogs ++ [Effect.uiBusy, Effect.startThread],
           { st with workerAlive := true })

/-- One whole submission: the synchronous call followed, when a worker was
started, by the worker's own effect trace for the given process behaviour.
The returned state is the state right after the synchronous call (the
worker resets `workerAlive` again only when its thread dies). -/
def fullRun (exe : String) (fs : FS) (ts : String) (mkdirFails : Bool)
    (st : AppState) (proc : ProcResult) : SubmitResult × List Effect × AppState :=
  match runConversion exe fs ts mkdirFails st with
  | (SubmitResult.started cmd out, tr, st') =>
      (SubmitResult.started cmd out, tr ++ workerEvents cmd out proc, st')
  | r => r

/-- The spec's `SourceKind` classification result (spec section 3). -/
inductive SourceKind where
  | Local
  | RemoteIdentifier
  | LocalFile
deriving DecidableEq

/-- Modelled from the spec's words (section 4.1, `classifySource`): the
four classification rules applied, in order, directly to the given string.
This is the comparison point for the refinement claim about
`_detect_source_type`; the executable truth is `detectSourceType`. -/
def specClassify (fs : FS) (path : String) : SourceKind :=
  if containsSlash path && !(fsExists fs path) then SourceKind.RemoteIdentifier
  else if fsExists fs path && fsIsDir fs path then SourceKind.Local
  else if fsExists fs path && (pyEndsWith path ".safetensors" || pyEndsWith path ".nemo") then SourceKind.LocalFile
  else SourceKind.RemoteIdentifier

/-- Map the source's result strings to the spec's `SourceKind`. -/
def toKind (s : String) : SourceKind :=
  if s = "local" then SourceKind.Local
  else if s = "file" then SourceKind.LocalFile
  else SourceKind.RemoteIdentifier

/-- Texts of the `onLine` events of a trace, in order. -/
def lineTexts (evs : List Effect) : List String :=
  evs.filterMap (fun e => match e with | Effect.line s => some s | _ => none)

/-- Whether an effect is the worker's UI/slot restoration. -/
def isUiIdle : Effect → Bool
  | Effect.uiIdle => true
  | _ => false

/-- Whether an effect is a worker-thread start. -/
def isStartThread : Effect → Bool
  | Effect.startThread => true
  | _ => false

/-- Whether an effect is the command-line log entry. -/
def isLogCmd : Effect → Bool
  | Effect.logCmd _ => true
  | _ => false

/-- A digit character decodes back to its digit. -/
lemma digToNat_digitChar : ∀ m, m < 10 → digToNat (Nat.digitChar m) = m := by decide

/-- Appending one digit multiplies the decoded value by ten and adds it. -/
lemma parseDec_append (xs : List Char) (d : Char) :
    parseDec (xs ++ [d]) = parseDec xs * 10 + digToNat d := by
  simp [parseDec, List.foldl_append]

/-- With sufficient fuel, `natDecAux` is a faithful decimal rendering: its
decoding returns the rendered number. -/
lemma parse_natDecAux : ∀ fuel n, n ≤ fuel → parseDec (natDecAux fuel n) = n := by
  intro fuel
  induction fuel with
  | zero =>
    intro n hn
    have : n = 0 := Nat.le_zero.mp hn
    subst this
    rfl
  | succ f ih =>
    intro n hn
    by_cases h0 : n = 0
    · subst h0
      simp [natDecAux, parseDec]
    · have hlt : n / 10 < n := Nat.div_lt_self (Nat.pos_of_ne_zero h0) (by norm_num)
      have hdiv : n / 10 ≤ f := by omega
      have hmod : n % 10 < 10 := Nat.mod_lt _ (by norm_num)
      simp only [natDecAux, h0, if_false]
      rw [parseDec_append, ih (n / 10) hdiv, digToNat_digitChar (n % 10) hmod]
      omega

/-- Decoding a rendered numeral returns the number. -/
lemma parseDec_natDecimal (n : Nat) : parseDec (natDecimal n).data = n := by
  by_cases h0 : n = 0
  · subst h0; rfl
  · simp only [natDecimal, h0, if_false]
    exact parse_natDecAux n n le_rfl

/-- Two strings with equal character data are equal. -/
lemma string_eq_of_data_eq {s t : String} (h : s.data = t.data) : s = t := by
  cases s; cases t; exact congrArg String.mk h

/-- Decimal rendering is injective. -/
lemma natDecimal_injective : Function.Injective natDecimal := by
  intro a b h
  have ha := parseDec_natDecimal a
  have hb := parseDec_natDecimal b
  rw [h] at ha
  rw [hb] at ha
  exact ha.symm

/-- Character data of a successor candidate path. -/
lemma candidate_succ_data (orig : String) (k : Nat) :
    (candidate orig (k + 1)).data = orig.data ++ ['_', 'v'] ++ (natDecimal (k + 1)).data := rfl

/-- The candidate output paths are pairwise distinct. -/
lemma candidate_injective (orig : String) : Function.Injective (candidate orig) := by
  intro i j h
  match i, j with
  | 0, 0 => rfl
  | 0, j+1 =>
    exfalso
    have hd : (candidate orig 0).data.length = (candidate orig (j + 1)).data.length := by rw [h]
    rw [candidate_succ_data] at hd
    simp [candidate] at hd
  | i+1, 0 =>
    exfalso
    have hd : (candidate orig (i + 1)).data.length = (candidate orig 0).data.length := by rw [h]
    rw [candidate_succ_data] at hd
    simp [candidate] at hd
  | i+1, j+1 =>
    have hd : (candidate orig (i + 1)).data = (candidate orig (j + 1)).data := by rw [h]
    rw [candidate_succ_data, candidate_succ_data] at hd
    have hdec : (natDecimal (i + 1)).data = (natDecimal (j + 1)).data :=
      List.append_cancel_left hd
    have := natDecimal_injective (string_eq_of_data_eq hdec)
    omega

/-- On a finite filesystem some candidate path with index at most the number
of existing paths is free. -/
lemma exists_free_candidate (fs : FS) (orig : String) :
    ∃ i, i ≤ fs.paths.length ∧ candidate orig i ∉ fs.paths := by
  by_contra hc
  push_neg at hc
  have hmaps : ∀ a ∈ Finset.range (fs.paths.length + 1), candidate orig a ∈ fs.paths.toFinset := by
    intro a ha
    rw [List.mem_toFinset]
    exact hc a (Nat.lt_succ_iff.mp (Finset.mem_range.mp ha))
  have hinj : Set.InjOn (candidate orig) (Finset.range (fs.paths.length + 1)) :=
    fun a _ b _ hab => candidate_injective orig hab
  have hcard := Finset.card_le_card_of_injOn (candidate orig) hmaps hinj
  rw [Finset.card_range] at hcard
  have := fs.paths.toFinset_card_le
  omega

/-- If some candidate in the remaining fuel window is free then the
uniqueness loop returns a path that does not exist. -/
lemma resolveUniqueAux_not_mem (fs : FS) (orig : String) :
    ∀ fuel k, (∃ i, i ≤ fuel ∧ candidate orig (k + i) ∉ fs.paths) →
      resolveUniqueAux fs orig fuel k ∉ fs.paths := by
  intro fuel
  induction fuel with
  | zero =>
    rintro k ⟨i, hi, hfree⟩
    have : i = 0 := Nat.le_zero.mp hi
    subst this
    simpa [resolveUniqueAux] using hfree
  | succ f ih =>
    rintro k ⟨i, hi, hfree⟩
    by_cases hmem : candidate orig k ∈ fs.paths
    · have hi0 : i ≠ 0 := by
        rintro rfl
        exact hfree (by simpa using hmem)
      have hstep : resolveUniqueAux fs orig (f + 1) k = resolveUniqueAux fs orig f (k + 1) := by
        simp [resolveUniqueAux, fsExists, hmem]
      rw [hstep]
      refine ih (k + 1) ⟨i - 1, by omega, ?_⟩
      have harith : k + 1 + (i - 1) = k + i := by omega
      rw [harith]
      exact hfree
    · simp only [resolveUniqueAux, fsExists, decide_eq_true_eq]
      rw [if_neg hmem]
      exact hmem

/-- The path returned by the uniqueness loop never exists on disk. -/
lemma resolveUnique_not_exists (fs : FS) (orig : String) :
    fsExists fs (resolveUnique fs orig) = false := by
  obtain ⟨i, hi, hfree⟩ := exists_free_candidate fs orig
  have h := resolveUniqueAux_not_mem fs orig (fs.paths.length + 1) 0
    ⟨i, by omega, by simpa using hfree⟩
  simpa [resolveUnique, fsExists] using h

/-- If the first `m` candidates all exist, `m` is at most the number of
existing paths. -/
lemma le_of_candidates_mem (fs : FS) (orig : String) (m : Nat)
    (h : ∀ i, i < m → candidate orig i ∈ fs.paths) : m ≤ fs.paths.length := by
  have hmaps : ∀ a ∈ Finset.range m, candidate orig a ∈ fs.paths.toFinset := by
    intro a ha
    rw [List.mem_toFinset]
    exact h a (Finset.mem_range.mp ha)
  have hinj : Set.InjOn (candidate orig) (Finset.range m) :=
    fun a _ b _ hab => candidate_injective orig hab
  have hcard := Finset.card_le_card_of_injOn (candidate orig) hmaps hinj
  rw [Finset.card_range] at hcard
  have := fs.paths.toFinset_card_le
  omega

/-- The uniqueness loop stops at the first free candidate. -/
lemma resolveUniqueAux_eq_first (fs : FS) (orig : String) (m : Nat)
    (hfree : candidate orig m ∉ fs.paths)
    (hmem : ∀ i, i < m → candidate orig i ∈ fs.paths) :
    ∀ fuel k, k ≤ m → m ≤ k + fuel →
      resolveUniqueAux fs orig fuel k = candidate orig m := by
  intro fuel
  induction fuel with
  | zero =>
    intro k h1 h2
    have : k = m := by omega
    subst this
    rfl
  | succ f ih =>
    intro k h1 h2
    by_cases hkm : k = m
    · subst hkm
      simp [resolveUniqueAux, fsExists, hfree]
    · have hk : candidate orig k ∈ fs.paths := hmem k (by omega)
      have hstep : resolveUniqueAux fs orig (f + 1) k = resolveUniqueAux fs orig f (k + 1) := by
        simp [resolveUniqueAux, fsExists, hk]
      rw [hstep]
      exact ih (k + 1) (by omega) (by omega)

/-- Characterization of the uniqueness resolution: if every candidate below
`m` exists and candidate `m` does not, the loop returns candidate `m`. -/
lemma resolveUnique_eq_first_free (fs : FS) (orig : String) (m : Nat)
    (hmem : ∀ i, i < m → fsExists fs (candidate orig i) = true)
    (hfree : fsExists fs (candidate orig m) = false) :
    resolveUnique fs orig = candidate orig m := by
  have hmem' : ∀ i, i < m → candidate orig i ∈ fs.paths := by
    intro i hi
    have := hmem i hi
    simpa [fsExists] using this
  have hfree' : candidate orig m ∉ fs.paths := by
    simpa [fsExists] using hfree
  have hle : m ≤ fs.paths.length := le_of_candidates_mem fs orig m hmem'
  exact resolveUniqueAux_eq_first fs orig m hfree' hmem' (fs.paths.length + 1) 0
    (by omega) (by omega)

/-- C8: for every request, `_build_command` emits exactly the fixed argument
vector — program invocation and subcommand, `--hf-path` with the effective
source, `--mlx-path` with the output path, `--dtype` with the dtype, then
the quantization flags `-q --q-bits --q-group-size` if and only if
quantization is enabled, then the trust flag if and only if
trust-remote-code is set — and nothing else.  Purity holds by construction:
`buildCommand` is a plain function of its arguments with no filesystem or
process parameter, so identical inputs give identical vectors. -/
theorem c8_build_command_fixed_order (exe src out ty dt : String)
    (q : Bool) (b g : String) (tr : Bool) :
    buildCommand exe src out ty dt q b g tr =
      [exe, "-m", "mlx_lm", "convert", "--hf-path", effectiveSource src ty,
       "--mlx-path", out, "--dtype", dt]
      ++ (if q then ["-q", "--q-bits", b, "--q-group-size", g] else [])
      ++ (if tr then ["--trust-remote-code"] else []) := by
  cases q <;> cases tr <;> simp [buildCommand]

/-- C10 counterexample: with quantization disabled the built argument
vector can still contain the literal string `-q` — here because the
user-supplied source path is itself the string `-q` — so the claim's
"the vector contains none of `-q`, `--q-bits`, or `--q-group-size`" is
false as stated. -/
theorem c10_counterexample :
    "-q" ∈ buildCommand "python" "-q" "/out/m" "hf" "float16" false "4" "64" false := by
  decide

/-- C10 (amended): when quantization is disabled the argument vector is
independent of the bits and group-size settings, and it contains none of
`-q`, `--q-bits`, `--q-group-size` provided no user-supplied field value
(the interpreter path, the source path, its parent directory, the output
path, the dtype) is itself literally one of those three strings. -/
theorem c10_quant_disabled_independent (exe src out ty dt b1 g1 b2 g2 : String) (tr : Bool) :
    buildCommand exe src out ty dt false b1 g1 tr = buildCommand exe src out ty dt false b2 g2 tr
  ∧ (∀ flag, (flag = "-q" ∨ flag = "--q-bits" ∨ flag = "--q-group-size") →
      exe ≠ flag → src ≠ flag → pathParent src ≠ flag → out ≠ flag → dt ≠ flag →
      flag ∉ buildCommand exe src out ty dt false b1 g1 tr) := by
  constructor
  · rfl
  · intro flag hflag h1 h2 h3 h4 h5 hmem
    have heff : effectiveSource src ty ≠ flag := by
      unfold effectiveSource
      split
      · exact h3
      · exact h2
    rcases hflag with rfl | rfl | rfl <;> cases tr <;>
      simp [buildCommand] at hmem <;> simp_all [eq_comm]

/-- C10 witness: a concrete quantization-disabled configuration where the
vector is independent of bits/group and `-q` does not occur. -/
theorem c10_witness :
    buildCommand "python" "model" "/out/m" "hf" "float16" false "4" "64" true
      = buildCommand "python" "model" "/out/m" "hf" "float16" false "8" "128" true
  ∧ "-q" ∉ buildCommand "python" "model" "/out/m" "hf" "float16" false "4" "64" true := by
  refine ⟨(c10_quant_disabled_independent "python" "model" "/out/m" "hf" "float16" "4" "64" "8" "128" true).1, ?_⟩
  exact (c10_quant_disabled_independent "python" "model" "/out/m" "hf" "float16" "4" "64" "8" "128" true).2
    "-q" (Or.inl rfl) (by decide) (by decide) (by decide) (by decide) (by decide)

/-- C6: with timestamping disabled the generated output path is the first
candidate not on disk — `base/name` when free, else `base/name_v1`, else
`base/name_v2`, and so on with the counter starting at 1 — and for every
filesystem state the returned path never equals an existing path. -/
theorem c6_output_path_unique (fs : FS) (base source srcType ts : String) :
    fsExists fs (generateOutputPath fs base source srcType false ts) = false
  ∧ ∀ m, (∀ i, i < m → fsExists fs (candidate (osJoin base (modelNameOf source srcType)) i) = true) →
      fsExists fs (candidate (osJoin base (modelNameOf source srcType)) m) = false →
      generateOutputPath fs base source srcType false ts
        = candidate (osJoin base (modelNameOf source srcType)) m := by
  constructor
  · simpa [generateOutputPath] using
      resolveUnique_not_exists fs (osJoin base (modelNameOf source srcType))
  · intro m hmem hfree
    simpa [generateOutputPath] using
      resolveUnique_eq_first_free fs (osJoin base (modelNameOf source srcType)) m hmem hfree

/-- Concrete filesystem for the C6 witness: `/out/m` and `/out/m_v1` exist. -/
def fsC6 : FS := ⟨["/out/m", "/out/m_v1"], ["/out/m", "/out/m_v1"]⟩

/-- C6 witness: with `base/name` and `base/name_v1` both existing, the
generated path is `base/name_v2`. -/
theorem c6_witness :
    generateOutputPath fsC6 "/out" "m" "local" false "20250101_000000" = "/out/m_v2" := by
  have h := (c6_output_path_unique fsC6 "/out" "m" "local" "20250101_000000").2 2
    (by decide) (by decide)
  rw [h]
  decide

/-- Concrete filesystem for the C7 counterexample: a directory `d` exists. -/
def fsC7 : FS := ⟨["d"], ["d"]⟩

/-- C7 counterexample: on the input `" d"` (an existing directory name with
a leading space) the code classifies `Local` — it strips the input first —
while the claim's rules, applied literally to the input string, classify
`RemoteIdentifier`; so the claim as stated, quantified over every input
string, is false. -/
theorem c7_counterexample :
    toKind (detectSourceType fsC7 " d") ≠ specClassify fsC7 " d" := by
  decide

/-- C7 (amended): `_detect_source_type` applies exactly the claim's four
rules in order — separator-and-nonexistent means remote, existing directory
means local, existing recognized model file means local file, remote
otherwise — to the whitespace-trimmed input string. -/
theorem c7_classify_rules_on_trimmed (fs : FS) (path : String) :
    toKind (detectSourceType fs path) = specClassify fs (pyStrip path) := by
  unfold detectSourceType specClassify
  cases h1 : containsSlash (pyStrip path) && !(fsExists fs (pyStrip path)) <;>
  cases h2 : fsExists fs (pyStrip path) <;>
  cases h3 : fsIsDir fs (pyStrip path) <;>
  cases h4 : pyEndsWith (pyStrip path) ".safetensors" || pyEndsWith (pyStrip path) ".nemo" <;>
    simp [h1, h2, h3, h4, toKind] <;> simp_all

/-- `lineTexts` distributes over appending traces. -/
lemma lineTexts_append (a b : List Effect) :
    lineTexts (a ++ b) = lineTexts a ++ lineTexts b := by
  simp [lineTexts]

/-- The streaming loop delivers exactly the right-stripped lines, in order. -/
lemma lineTexts_streamLines (ls : List String) :
    lineTexts (streamLines ls) = ls.map pyRstrip := by
  induction ls with
  | nil => rfl
  | cons l ls ih => simp [streamLines, lineTexts] at ih ⊢; exact ih

/-- The status report contains no line events. -/
lemma lineTexts_statusEvents (out : String) (code : Int) :
    lineTexts (statusEvents out code) = [] := by
  unfold statusEvents
  split <;> rfl

/-- The streaming loop performs no UI restoration. -/
lemma countP_uiIdle_streamLines (ls : List String) :
    (streamLines ls).countP isUiIdle = 0 := by
  induction ls with
  | nil => rfl
  | cons l ls ih => simp [streamLines, List.countP_cons, isUiIdle, ih]

/-- The status report performs no UI restoration. -/
lemma countP_uiIdle_statusEvents (out : String) (code : Int) :
    (statusEvents out code).countP isUiIdle = 0 := by
  unfold statusEvents
  split <;> rfl

/-- Every event of the streaming loop is a line event. -/
lemma mem_streamLines (e : Effect) : ∀ ls : List String, e ∈ streamLines ls → ∃ s, e = Effect.line s := by
  intro ls
  induction ls with
  | nil => intro h; simp [streamLines] at h
  | cons l ls ih =>
    intro h
    simp only [streamLines, List.mem_cons] at h
    rcases h with rfl | h
    · exact ⟨pyRstrip l, rfl⟩
    · exact ih h

/-- No log entry is an event of the streaming loop. -/
lemma logMsg_not_mem_streamLines (lv m : String) (ls : List String) :
    Effect.logMsg lv m ∉ streamLines ls := by
  intro h
  obtain ⟨s, hs⟩ := mem_streamLines _ ls h
  exact Effect.noConfusion hs

/-- No event of the status report is the UI restoration. -/
lemma not_uiIdle_statusEvents (out : String) (code : Int) :
    ∀ e ∈ statusEvents out code, (!(isUiIdle e)) = true := by
  unfold statusEvents
  split
  · intro e he
    simp at he
    rcases he with rfl | rfl <;> rfl
  · intro e he
    simp at he
    subst he
    rfl

/-- Dropping a prefix whose elements all satisfy the predicate. -/
lemma dropWhile_append_of_all (p : Effect → Bool) (a b : List Effect)
    (h : ∀ e ∈ a, p e = true) : (a ++ b).dropWhile p = b.dropWhile p := by
  induction a with
  | nil => rfl
  | cons x xs ih =>
    simp only [List.cons_append, List.dropWhile_cons, h x (List.mem_cons_self x xs), if_true]
    exact ih (fun e he => h e (List.mem_cons_of_mem x he))

/-- C1: for every sequence of lines emitted by the external process and
every exit code, the worker delivers one `onLine` event per line, in
emission order (each line right-stripped, as the source logs it), performs
the completion's UI/slot restoration exactly once, and no line event occurs
at or after that restoration — the completion is strictly after the last
`onLine`. -/
theorem c1_line_stream_order (cmd : List String) (out : String) (lines : List String) (code : Int) :
    lineTexts (workerEvents cmd out (Except.ok (lines, code))) = lines.map pyRstrip
  ∧ (workerEvents cmd out (Except.ok (lines, code))).countP isUiIdle = 1
  ∧ lineTexts ((workerEvents cmd out (Except.ok (lines, code))).dropWhile (fun e => !(isUiIdle e))) = [] := by
  have hcons : ∀ l : List Effect, lineTexts (Effect.spawn cmd :: l) = lineTexts l := fun _ => rfl
  refine ⟨?_, ?_, ?_⟩
  · simp only [workerEvents, hcons, lineTexts_append, lineTexts_streamLines,
               lineTexts_statusEvents, cleanupEvents]
    simp [lineTexts]
  · simp [workerEvents, List.countP_append, List.countP_cons, countP_uiIdle_streamLines,
          countP_uiIdle_statusEvents, cleanupEvents, isUiIdle]
  · have hstruct : workerEvents cmd out (Except.ok (lines, code)) =
        (Effect.spawn cmd :: (streamLines lines ++ statusEvents out code)) ++ cleanupEvents := by
      simp [workerEvents]
    rw [hstruct]
    rw [dropWhile_append_of_all (fun e => !(isUiIdle e)) _ cleanupEvents ?_]
    · rfl
    · intro e he
      simp only [List.mem_cons] at he
      rcases he with rfl | he
      · rfl
      · rcases List.mem_append.mp he with he | he
        · obtain ⟨s, rfl⟩ := mem_streamLines e lines he
          rfl
        · exact not_uiIdle_statusEvents out code e he

/-- No worker event is a thread start. -/
lemma countP_startThread_workerEvents (cmd : List String) (out : String) (proc : ProcResult) :
    (workerEvents cmd out proc).countP isStartThread = 0 := by
  match proc with
  | Except.error cause => rfl
  | Except.ok (lines, code) =>
    have hs : (streamLines lines).countP isStartThread = 0 := by
      induction lines with
      | nil => rfl
      | cons l ls ih => simp [streamLines, List.countP_cons, isStartThread, ih]
    have hst : (statusEvents out code).countP isStartThread = 0 := by
      unfold statusEvents
      split <;> rfl
    simp [workerEvents, List.countP_append, List.countP_cons, isStartThread, hs, hst,
          cleanupEvents]

/-- The synchronous part of a submission starts at most one worker thread. -/
lemma countP_startThread_runConversion (exe : String) (fs : FS) (ts : String)
    (mk : Bool) (st : AppState) :
    (runConversion exe fs ts mk st).2.1.countP isStartThread ≤ 1 := by
  simp only [runConversion]
  split
  · simp
  · split
    · simp
    · split
      · simp [nemoLogs, List.countP_cons, isStartThread]
      · split
        · simp
        · split
          · simp [List.countP_append, List.countP_cons, isStartThread]
          · simp [List.countP_append, List.countP_cons, isStartThread]

/-- C2: while a worker thread is alive, a new submission is rejected
synchronously (`AlreadyRunning` warning), produces an empty effect trace —
no output path logged, no directory created, no process spawned, no thread
started — and leaves the state unchanged; and every submission, in every
state, starts at most one worker thread, so at most one task runs at a
time. -/
theorem c2_already_running_rejected (exe : String) (fs : FS) (ts : String)
    (mk : Bool) (st : AppState) (proc : ProcResult) :
    (st.workerAlive = true → fullRun exe fs ts mk st proc = (SubmitResult.alreadyRunning, [], st))
  ∧ (fullRun exe fs ts mk st proc).2.1.countP isStartThread ≤ 1 := by
  constructor
  · intro h
    simp [fullRun, runConversion, h]
  · unfold fullRun
    split
    · rename_i cmd out tr st' heq
      have h1 := countP_startThread_runConversion exe fs ts mk st
      rw [heq] at h1
      simp only [List.countP_append]
      have h2 := countP_startThread_workerEvents cmd out proc
      simp only [h2, Nat.add_zero]
      simpa using h1
    · exact countP_startThread_runConversion exe fs ts mk st

/-- Concrete state for the C2 witness: a worker is alive. -/
def stBusy : AppState :=
  ⟨true, "meta-llama/Llama-3.2-3B", "/out", true, true, "4", "64", "float16", true, false, false⟩

/-- C2 witness: submitting while a worker is alive returns the rejection
with no effects and the state unchanged. -/
theorem c2_witness :
    fullRun "python" ⟨[], []⟩ "20250101_000000" false stBusy (Except.ok ([], 0)) =
      (SubmitResult.alreadyRunning, [], stBusy) :=
  (c2_already_running_rejected "python" ⟨[], []⟩ "20250101_000000" false stBusy
    (Except.ok ([], 0))).1 rfl

/-- C3: for every run in which the process is spawned and exits, the worker
reports success if and only if the exit code is 0, and for every non-zero
exit code `n` it reports the failure entry carrying exactly `n` — no other
decoding of exit codes. -/
theorem c3_exit_code_terminal (cmd : List String) (out : String) (lines : List String) (code : Int) :
    (Effect.logMsg "SUCCESS" "SUCCESS: Conversion completed!"
        ∈ workerEvents cmd out (Except.ok (lines, code)) ↔ code = 0)
  ∧ (code ≠ 0 → Effect.logMsg "ERROR" ("ERROR: Conversion failed (exit code " ++ intDec code ++ ")")
        ∈ workerEvents cmd out (Except.ok (lines, code))) := by
  constructor
  · constructor
    · intro hmem
      by_contra hne
      simp [workerEvents, statusEvents, hne, cleanupEvents,
            logMsg_not_mem_streamLines] at hmem
    · intro h0
      simp [workerEvents, statusEvents, h0]
  · intro hne
    simp [workerEvents, statusEvents, hne, cleanupEvents]

/-- C3 witness: exit code 0 yields the success report; exit code 17 yields
the failure report carrying 17. -/
theorem c3_witness :
    (Effect.logMsg "SUCCESS" "SUCCESS: Conversion completed!"
        ∈ workerEvents ["c"] "/out/m" (Except.ok (["a"], 0)))
  ∧ Effect.logMsg "ERROR" ("ERROR: Conversion failed (exit code " ++ intDec 17 ++ ")")
        ∈ workerEvents ["c"] "/out/m" (Except.ok (["a"], 17)) := by
  constructor
  · exact (c3_exit_code_terminal ["c"] "/out/m" ["a"] 0).1.mpr rfl
  · exact (c3_exit_code_terminal ["c"] "/out/m" ["a"] 17).2 (by decide)

/-- The empty filesystem. -/
def fsEmpty : FS := ⟨[], []⟩

/-- Concrete idle state used for the launch-failure and dry-run scenarios. -/
def stIdle : AppState :=
  ⟨false, "mymodel", "/out", false, true, "4", "64", "float16", true, false, false⟩

/-- C4 counterexample: when process creation fails (here with a
file-not-found cause), the submission has already been accepted — the
worker thread was started, so the single slot is occupied — the failure is
reported from the worker as an asynchronous error log entry, and the
completion's UI/slot restoration still occurs; so the claim's "reported
synchronously from submit, the slot is never occupied, and no onDone
occurs" is false as stated. -/
theorem c4_counterexample :
    Effect.startThread
        ∈ (fullRun "python" fsEmpty "ts" false stIdle (Except.error "No such file or directory")).2.1
  ∧ Effect.uiIdle
        ∈ (fullRun "python" fsEmpty "ts" false stIdle (Except.error "No such file or directory")).2.1
  ∧ Effect.logMsg "ERROR" "ERROR: No such file or directory"
        ∈ (fullRun "python" fsEmpty "ts" false stIdle (Except.error "No such file or directory")).2.1
  ∧ (fullRun "python" fsEmpty "ts" false stIdle (Except.error "No such file or directory")).2.2.workerAlive = true := by
  decide

/-- C4 (amended): when process creation fails, the submission call itself
has already returned `started` (the worker occupies the slot); the failure
is caught inside the worker and reported asynchronously as a single error
log entry carrying the cause; no output line is ever delivered; and the
completion's UI/slot restoration still happens exactly once. -/
theorem c4_launch_failure_async (exe : String) (fs : FS) (ts : String) (st : AppState)
    (cause : String)
    (hA : st.workerAlive = false) (hs : pyStrip st.sourcePath ≠ "")
    (hn : pyEndsWith (pyStrip st.sourcePath) ".nemo" = false) (hd : st.dryRun = false) :
    (∃ c o, (fullRun exe fs ts false st (Except.error cause)).1 = SubmitResult.started c o)
  ∧ lineTexts (fullRun exe fs ts false st (Except.error cause)).2.1 = []
  ∧ Effect.logMsg "ERROR" ("ERROR: " ++ cause) ∈ (fullRun exe fs ts false st (Except.error cause)).2.1
  ∧ (fullRun exe fs ts false st (Except.error cause)).2.1.countP isUiIdle = 1
  ∧ (fullRun exe fs ts false st (Except.error cause)).2.2.workerAlive = true := by
  have h1 : ∃ c o, (fullRun exe fs ts false st (Except.error cause)).1 = SubmitResult.started c o := by
    simp [fullRun, runConversion, hA, hs, hn, hd]
  refine ⟨h1, ?_, ?_, ?_, ?_⟩ <;>
    simp [fullRun, runConversion, hA, hs, hn, hd, workerEvents, cleanupEvents, lineTexts,
          List.countP_cons, List.countP_append, isUiIdle]

/-- C4 witness: the amended behaviour at a concrete idle state and concrete
cause. -/
theorem c4_witness :
    (∃ c o, (fullRun "python" fsEmpty "ts" false stIdle (Except.error "Permission denied")).1
        = SubmitResult.started c o)
  ∧ lineTexts (fullRun "python" fsEmpty "ts" false stIdle (Except.error "Permission denied")).2.1 = []
  ∧ Effect.logMsg "ERROR" ("ERROR: " ++ "Permission denied")
        ∈ (fullRun "python" fsEmpty "ts" false stIdle (Except.error "Permission denied")).2.1
  ∧ (fullRun "python" fsEmpty "ts" false stIdle (Except.error "Permission denied")).2.1.countP isUiIdle = 1
  ∧ (fullRun "python" fsEmpty "ts" false stIdle (Except.error "Permission denied")).2.2.workerAlive = true :=
  c4_launch_failure_async "python" fsEmpty "ts" stIdle "Permission denied"
    (by decide) (by decide) (by decide) (by decide)

/-- C5: a dry-run submission never spawns a process and never starts a
worker thread, logs the would-be command line exactly once, returns the
dry-run completion synchronously, and leaves the state — in particular the
single task slot — unchanged. -/
theorem c5_dry_run (exe : String) (fs : FS) (ts : String) (st : AppState) (proc : ProcResult)
    (hA : st.workerAlive = false) (hs : pyStrip st.sourcePath ≠ "")
    (hn : pyEndsWith (pyStrip st.sourcePath) ".nemo" = false)
    (hd : st.dryRun = true) :
    (fullRun exe fs ts false st proc).1 = SubmitResult.dryRunReturn
  ∧ (fullRun exe fs ts false st proc).2.1.countP isLogCmd = 1
  ∧ (∀ c, Effect.spawn c ∉ (fullRun exe fs ts false st proc).2.1)
  ∧ Effect.startThread ∉ (fullRun exe fs ts false st proc).2.1
  ∧ (fullRun exe fs ts false st proc).2.2 = st := by
  refine ⟨?_, ?_, ?_, ?_, ?_⟩ <;>
    simp [fullRun, runConversion, hA, hs, hn, hd, List.countP_cons, List.countP_append, isLogCmd]

/-- Concrete dry-run state for the C5 witness. -/
def stDry : AppState :=
  ⟨false, "org/model", "/out", false, true, "4", "64", "float16", true, false, true⟩

/-- C5 witness: the dry-run behaviour at a concrete state. -/
theorem c5_witness :
    (fullRun "python" fsEmpty "ts" false stDry (Except.ok ([], 0))).1 = SubmitResult.dryRunReturn
  ∧ (fullRun "python" fsEmpty "ts" false stDry (Except.ok ([], 0))).2.1.countP isLogCmd = 1
  ∧ (∀ c, Effect.spawn c ∉ (fullRun "python" fsEmpty "ts" false stDry (Except.ok ([], 0))).2.1)
  ∧ Effect.startThread ∉ (fullRun "python" fsEmpty "ts" false stDry (Except.ok ([], 0))).2.1
  ∧ (fullRun "python" fsEmpty "ts" false stDry (Except.ok ([], 0))).2.2 = stDry :=
  c5_dry_run "python" fsEmpty "ts" stDry (Except.ok ([], 0))
    (by decide) (by decide) (by decide) (by decide)

/-- C9: submitting a source whose (stripped) name ends in `.nemo` is
refused before any task is created: the submission reports the
manual-conversion condition synchronously, the trace consists only of the
instruction log entries — no process spawn, no thread start, no directory
creation — and the state, in particular the task slot, is unchanged. -/
theorem c9_nemo_refused (exe : String) (fs : FS) (ts : String) (mk : Bool)
    (st : AppState) (proc : ProcResult)
    (hA : st.workerAlive = false) (hs : pyStrip st.sourcePath ≠ "")
    (hn : pyEndsWith (pyStrip st.sourcePath) ".nemo" = true) :
    (fullRun exe fs ts mk st proc).1 = SubmitResult.manualConversionRequired
  ∧ (∀ e ∈ (fullRun exe fs ts mk st proc).2.1, ∃ lv m, e = Effect.logMsg lv m)
  ∧ (fullRun exe fs ts mk st proc).2.2 = st := by
  refine ⟨?_, ?_, ?_⟩ <;>
    simp [fullRun, runConversion, hA, hs, hn, nemoLogs]

/-- Concrete state with a `.nemo` source for the C9 witness. -/
def stNemo : AppState :=
  ⟨false, "model.nemo", "/out", false, true, "4", "64", "float16", true, false, false⟩

/-- C9 witness: the refusal at a concrete `.nemo` source. -/
theorem c9_witness :
    (fullRun "python" fsEmpty "ts" false stNemo (Except.ok ([], 0))).1
        = SubmitResult.manualConversionRequired
  ∧ (∀ e ∈ (fullRun "python" fsEmpty "ts" false stNemo (Except.ok ([], 0))).2.1,
        ∃ lv m, e = Effect.logMsg lv m)
  ∧ (fullRun "python" fsEmpty "ts" false stNemo (Except.ok ([], 0))).2.2 = stNemo :=
  c9_nemo_refused "python" fsEmpty "ts" false stNemo (Except.ok ([], 0))
    (by decide) (by decide) (by decide)
